import Mathlib

/-!
Shallow embedding of `src/parallelism/thread_scheduler.py` (class `Job`).

The Python class runs a supervisory loop on a background thread and arms
one-shot `Timer` executions of `_wrapper`.  We embed the shared mutable
state as a `Job` record, the body of `_wrapper` as a pure state transformer
(the user function is opaque: each invocation is summarised by a boolean
outcome `ok` and, on failure, the traceback string `tb` that
`traceback.format_exc()` would produce), and one iteration of `_loop` as
`loopBody`.  A whole run of the system is the sequential trace `runTrace`:
each list element is one armed execution (poll that arms it, then the timer
firing); the wrapper is treated as atomic, which matches the loop's
behaviour of doing nothing while status is RUNNING or SCHEDULED.
-/

namespace ThreadScheduler

/-- The six values the Python `status` string attribute takes. -/
inductive Status where
  | INITIATED
  | SCHEDULED
  | RUNNING
  | COMPLETED
  | FAILED
  | TERMINATED
deriving DecidableEq, Repr

/-- The mutable state of a `Job` instance.  Field names follow the Python
attributes (`_stop_event`/`_exception_list` lose their underscore; the
`Timer` handle `self.job` and the opaque `function`/`kwargs` are not part of
the state the claims are about). -/
structure Job where
  every_seconds : Nat
  max_crashes : Nat
  max_runs : Int
  status : Status
  crashed : Nat
  runs : Nat
  stop_event : Bool
  exception_list : List String
  next_execution_at : Nat
deriving DecidableEq, Repr

/-- Constructor `Job.__init__`: the state right after construction (before the loop
thread has done anything). -/
def Job.init (every_seconds max_crashes : Nat) (max_runs : Int) : Job :=
  { every_seconds := every_seconds
    max_crashes := max_crashes
    max_runs := max_runs
    status := Status.INITIATED
    crashed := 0
    runs := 0
    stop_event := false
    exception_list := []
    next_execution_at := 0 }

/-- Method `Job.stop`: sets the threading `Event`. -/
def Job.stop (j : Job) : Job :=
  { j with stop_event := true }

/-- Method `Job._wrapper`, one execution of the wrapped function.  `ok` is whether
`self.function(**self.kwargs)` returns normally, `tb` the traceback recorded
on failure, `now` the value of `time()`.  The second component records
whether the `raise` in the `finally` block fires (the fatal crash-ceiling
exception); when it does, the trailing `self.status = "COMPLETED"` line is
never reached. -/
def Job.wrapper (j : Job) (ok : Bool) (tb : String) (now : Nat) : Job × Bool :=
  let j1 : Job := { j with status := Status.RUNNING }
  let j2 : Job := { j1 with next_execution_at := now + j1.every_seconds }
  let j3 : Job :=
    if ok then
      let ja : Job := { j2 with crashed := 0, runs := j2.runs + 1 }
      if ja.every_seconds = 0 ∨ (ja.runs : Int) = ja.max_runs then ja.stop else ja
    else
      { j2 with exception_list := j2.exception_list ++ [tb], crashed := j2.crashed + 1 }
  if j3.crashed > j3.max_crashes then
    ({ j3 with status := Status.FAILED, stop_event := true }, true)
  else
    ({ j3 with status := Status.COMPLETED }, false)

/-- Result of one iteration of `Job._loop`: the loop exits, does nothing
this tick, or arms a `Timer` firing `_wrapper` after `delay` seconds. -/
inductive LoopResult where
  | exited (j : Job)
  | idle (j : Job)
  | armed (j : Job) (delay : Int)
deriving DecidableEq, Repr

/-- One iteration of the `while` loop in `Job._loop`, at time `now`. -/
def Job.loopBody (j : Job) (now : Nat) : LoopResult :=
  if j.stop_event then
    LoopResult.exited
      { j with status := if j.status ≠ Status.FAILED then Status.TERMINATED else j.status }
  else if j.status = Status.RUNNING ∨ j.status = Status.SCHEDULED then
    LoopResult.idle j
  else if j.status = Status.COMPLETED ∨ j.status = Status.INITIATED then
    LoopResult.armed { j with status := Status.SCHEDULED }
      (if now < j.next_execution_at then (j.next_execution_at : Int) - (now : Int) else 1)
  else
    LoopResult.idle j

/-- One potential execution of the wrapped function: its outcome `ok`, the
traceback `tb` captured if it fails, and the time `now` at which it fires. -/
structure Exec where
  ok : Bool
  tb : String
  now : Nat
deriving DecidableEq, Repr

/-- Sequential trace of the system: for each event the loop polls; if it
has exited nothing more happens, if it arms, the armed execution fires with
that event's outcome.  An `idle` tick consumes the event without any
execution (unreachable from reachable states in this sequential model). -/
def Job.runTrace (j : Job) : List Exec → Job
  | [] => j
  | e :: rest =>
    match j.loopBody e.now with
    | LoopResult.exited j' => j'
    | LoopResult.idle j' => j'.runTrace rest
    | LoopResult.armed j' _ => ((j'.wrapper e.ok e.tb e.now).1).runTrace rest

/-- The failure records appended along a trace, mirroring `runTrace`:
one record per failed execution that actually fires. -/
def Job.failRecords (j : Job) : List Exec → List String
  | [] => []
  | e :: rest =>
    match j.loopBody e.now with
    | LoopResult.exited _ => []
    | LoopResult.idle j' => j'.failRecords rest
    | LoopResult.armed j' _ =>
      (if e.ok then [] else [e.tb]) ++ ((j'.wrapper e.ok e.tb e.now).1).failRecords rest

/-- The `Job.exception` property: `None` when the list is empty, the list
otherwise. -/
def Job.exception (j : Job) : Option (List String) :=
  if j.exception_list.length = 0 then none else some j.exception_list

/-- Method `Job.clear_exception`: replaces the exception list with a fresh empty
list. -/
def Job.clear_exception (j : Job) : Job :=
  { j with exception_list := [] }

/-! ## Helper lemmas characterising single steps -/

/-- With the stop event set, one loop poll exits, setting `TERMINATED`
unless the status is already `FAILED`. -/
lemma loopBody_stopped (j : Job) (now : Nat) (h : j.stop_event = true) :
    j.loopBody now = LoopResult.exited
      { j with status := if j.status ≠ Status.FAILED then Status.TERMINATED else j.status } := by
  simp [Job.loopBody, h]

/-- With the stop event clear and the job between executions, one loop poll
arms an execution. -/
lemma loopBody_arms (j : Job) (now : Nat) (h1 : j.stop_event = false)
    (h2 : j.status = Status.COMPLETED ∨ j.status = Status.INITIATED) :
    j.loopBody now = LoopResult.armed { j with status := Status.SCHEDULED }
      (if now < j.next_execution_at then (j.next_execution_at : Int) - (now : Int) else 1) := by
  rcases h2 with h2 | h2 <;> simp [Job.loopBody, h1, h2]

/-- A trace step from a stopped job: the loop exits and nothing else ever
happens. -/
lemma runTrace_stopped (j : Job) (e : Exec) (evs : List Exec) (h : j.stop_event = true) :
    j.runTrace (e :: evs) =
      { j with status := if j.status ≠ Status.FAILED then Status.TERMINATED else j.status } := by
  simp [Job.runTrace, loopBody_stopped j e.now h]

/-- A successful wrapper execution that does not trigger the self-stop
check (`every_seconds ≠ 0` and the new run count differs from `max_runs`). -/
lemma wrapper_ok (j : Job) (tb : String) (now : Nat)
    (h3 : j.every_seconds ≠ 0) (h4 : ((j.runs + 1 : Nat) : Int) ≠ j.max_runs) :
    (j.wrapper true tb now).1 =
      { j with status := Status.COMPLETED, crashed := 0, runs := j.runs + 1,
               next_execution_at := now + j.every_seconds } := by
  cases j with
  | mk es mc mr st cr rn se el ne =>
    simp_all [Job.wrapper, Job.stop]

/-- A successful wrapper execution that triggers the self-stop check. -/
lemma wrapper_ok_stop (j : Job) (tb : String) (now : Nat)
    (h4 : j.every_seconds = 0 ∨ ((j.runs + 1 : Nat) : Int) = j.max_runs) :
    (j.wrapper true tb now).1 =
      { j with status := Status.COMPLETED, crashed := 0, runs := j.runs + 1,
               stop_event := true, next_execution_at := now + j.every_seconds } := by
  cases j with
  | mk es mc mr st cr rn se el ne =>
    rcases h4 with h4 | h4 <;> simp_all [Job.wrapper, Job.stop]

/-- A failed wrapper execution below the crash ceiling. -/
lemma wrapper_fail (j : Job) (tb : String) (now : Nat)
    (h5 : j.crashed + 1 ≤ j.max_crashes) :
    (j.wrapper false tb now).1 =
      { j with status := Status.COMPLETED, crashed := j.crashed + 1,
               exception_list := j.exception_list ++ [tb],
               next_execution_at := now + j.every_seconds } := by
  cases j with
  | mk es mc mr st cr rn se el ne =>
    simp_all [Job.wrapper, Job.stop, Nat.not_lt.mpr h5]

/-- A failed wrapper execution that breaches the crash ceiling. -/
lemma wrapper_fail_fatal (j : Job) (tb : String) (now : Nat)
    (h5 : j.max_crashes < j.crashed + 1) :
    (j.wrapper false tb now).1 =
      { j with status := Status.FAILED, crashed := j.crashed + 1,
               stop_event := true,
               exception_list := j.exception_list ++ [tb],
               next_execution_at := now + j.every_seconds } := by
  cases j with
  | mk es mc mr st cr rn se el ne =>
    simp_all [Job.wrapper, Job.stop]

/-- One trace step: a successful execution that does not trigger the
self-stop check. -/
lemma runTrace_cons_ok (j : Job) (tb : String) (now : Nat) (evs : List Exec)
    (h1 : j.stop_event = false)
    (h2 : j.status = Status.COMPLETED ∨ j.status = Status.INITIATED)
    (h3 : j.every_seconds ≠ 0) (h4 : ((j.runs + 1 : Nat) : Int) ≠ j.max_runs) :
    j.runTrace (⟨true, tb, now⟩ :: evs) =
      ({ j with status := Status.COMPLETED, crashed := 0, runs := j.runs + 1,
                next_execution_at := now + j.every_seconds }).runTrace evs := by
  have harm := loopBody_arms j now h1 h2
  have hw := wrapper_ok { j with status := Status.SCHEDULED } tb now h3 h4
  simp only [Job.runTrace, harm, hw]

/-- One trace step: a successful execution that triggers the self-stop
check (`every_seconds = 0` or the run counter reaches `max_runs`). -/
lemma runTrace_cons_ok_stop (j : Job) (tb : String) (now : Nat) (evs : List Exec)
    (h1 : j.stop_event = false)
    (h2 : j.status = Status.COMPLETED ∨ j.status = Status.INITIATED)
    (h4 : j.every_seconds = 0 ∨ ((j.runs + 1 : Nat) : Int) = j.max_runs) :
    j.runTrace (⟨true, tb, now⟩ :: evs) =
      ({ j with status := Status.COMPLETED, crashed := 0, runs := j.runs + 1,
                stop_event := true, next_execution_at := now + j.every_seconds }).runTrace evs := by
  have harm := loopBody_arms j now h1 h2
  have hw := wrapper_ok_stop { j with status := Status.SCHEDULED } tb now h4
  simp only [Job.runTrace, harm, hw]

/-- One trace step: a failed execution below the crash ceiling. -/
lemma runTrace_cons_fail (j : Job) (tb : String) (now : Nat) (evs : List Exec)
    (h1 : j.stop_event = false)
    (h2 : j.status = Status.COMPLETED ∨ j.status = Status.INITIATED)
    (h5 : j.crashed + 1 ≤ j.max_crashes) :
    j.runTrace (⟨false, tb, now⟩ :: evs) =
      ({ j with status := Status.COMPLETED, crashed := j.crashed + 1,
                exception_list := j.exception_list ++ [tb],
                next_execution_at := now + j.every_seconds }).runTrace evs := by
  have harm := loopBody_arms j now h1 h2
  have hw := wrapper_fail { j with status := Status.SCHEDULED } tb now h5
  simp only [Job.runTrace, harm, hw]

/-- One trace step: a failed execution that breaches the crash ceiling. -/
lemma runTrace_cons_fail_fatal (j : Job) (tb : String) (now : Nat) (evs : List Exec)
    (h1 : j.stop_event = false)
    (h2 : j.status = Status.COMPLETED ∨ j.status = Status.INITIATED)
    (h5 : j.max_crashes < j.crashed + 1) :
    j.runTrace (⟨false, tb, now⟩ :: evs) =
      ({ j with status := Status.FAILED, crashed := j.crashed + 1,
                stop_event := true,
                exception_list := j.exception_list ++ [tb],
                next_execution_at := now + j.every_seconds }).runTrace evs := by
  have harm := loopBody_arms j now h1 h2
  have hw := wrapper_fail_fatal { j with status := Status.SCHEDULED } tb now h5
  simp only [Job.runTrace, harm, hw]

/-- The wrapper touches the exception list exactly by appending `tb` on a
failed execution, in every branch. -/
lemma wrapper_list (j : Job) (ok : Bool) (tb : String) (now : Nat) :
    (j.wrapper ok tb now).1.exception_list =
      j.exception_list ++ (if ok then [] else [tb]) := by
  cases j with
  | mk es mc mr st cr rn se el ne =>
    cases ok <;> simp only [Job.wrapper, Job.stop] <;> split <;> simp_all <;> split <;> simp_all

/-- Along any trace, the exception list only grows by the records of the
failed executions that actually fire. -/
lemma runTrace_list (j : Job) (evs : List Exec) :
    (j.runTrace evs).exception_list = j.exception_list ++ j.failRecords evs := by
  induction evs generalizing j with
  | nil => simp [Job.runTrace, Job.failRecords]
  | cons e rest ih =>
    cases hse : j.stop_event with
    | true => simp [Job.runTrace, Job.failRecords, Job.loopBody, hse]
    | false =>
      cases hst : j.status <;>
        simp [Job.runTrace, Job.failRecords, Job.loopBody, hse, hst, ih, wrapper_list,
          List.append_assoc]

/-- The state of an always-succeeding job with nonzero period after `k`
executions (for `1 ≤ k`, before the run ceiling is met), with all events
fired at time `0`. -/
def succState (p K N k : Nat) : Job :=
  { every_seconds := p
    max_crashes := K
    max_runs := (N : Int)
    status := Status.COMPLETED
    crashed := 0
    runs := k
    stop_event := false
    exception_list := []
    next_execution_at := p }

/-- The state of an always-succeeding job right after the execution whose
success made the run counter reach `max_runs = N`. -/
def succEnd (p K N : Nat) : Job :=
  { succState p K N N with stop_event := true }

/-- The state of an always-failing job after `k` executions (for
`1 ≤ k ≤ max_crashes`), with all events fired at time `0`. -/
def failState (p K k : Nat) : Job :=
  { every_seconds := p
    max_crashes := K
    max_runs := -1
    status := Status.COMPLETED
    crashed := k
    runs := 0
    stop_event := false
    exception_list := List.replicate k "t"
    next_execution_at := p }

/-- The state of an always-failing job right after the execution that
breached the crash ceiling. -/
def failEnd (p K : Nat) : Job :=
  { failState p K (K + 1) with status := Status.FAILED, stop_event := true }

/-- Iterating successful executions below the run ceiling. -/
lemma succ_steps (p K N : Nat) (hp : p ≠ 0) :
    ∀ (k m : Nat), m + k < N → ∀ rest : List Exec,
      (succState p K N m).runTrace (List.replicate k ⟨true, "t", 0⟩ ++ rest) =
        (succState p K N (m + k)).runTrace rest := by
  intro k
  induction k with
  | zero => intro m _ rest; simp
  | succ k ih =>
    intro m h rest
    have h4 : ((m + 1 : Nat) : Int) ≠ ((N : Nat) : Int) := by
      exact_mod_cast (by omega : m + 1 ≠ N)
    rw [List.replicate_succ, List.cons_append,
        runTrace_cons_ok (succState p K N m) "t" 0 _ rfl (Or.inl rfl) hp h4]
    have hstate : ({ succState p K N m with status := Status.COMPLETED, crashed := 0, runs := (succState p K N m).runs + 1, next_execution_at := 0 + (succState p K N m).every_seconds } : Job) = succState p K N (m + 1) := by
      simp [succState]
    rw [hstate]
    have harith : m + 1 + k = m + (k + 1) := by omega
    have hrest := ih (m + 1) (by omega) rest
    rw [harith] at hrest
    exact hrest

/-- Iterating failed executions below the crash ceiling. -/
lemma fail_steps (p K : Nat) :
    ∀ (k m : Nat), m + k ≤ K → ∀ rest : List Exec,
      (failState p K m).runTrace (List.replicate k ⟨false, "t", 0⟩ ++ rest) =
        (failState p K (m + k)).runTrace rest := by
  intro k
  induction k with
  | zero => intro m _ rest; simp
  | succ k ih =>
    intro m h rest
    rw [List.replicate_succ, List.cons_append,
        runTrace_cons_fail (failState p K m) "t" 0 _ rfl (Or.inl rfl) (by simp [failState]; omega)]
    have hstate : ({ failState p K m with status := Status.COMPLETED, crashed := (failState p K m).crashed + 1, exception_list := (failState p K m).exception_list ++ ["t"], next_execution_at := 0 + (failState p K m).every_seconds } : Job) = failState p K (m + 1) := by
      simp [failState, List.replicate_succ, ← List.replicate_succ']
    rw [hstate]
    have harith : m + 1 + k = m + (k + 1) := by omega
    have hrest := ih (m + 1) (by omega) rest
    rw [harith] at hrest
    exact hrest

/-- Once the stop event is set, a trace changes nothing but possibly the
status (to `TERMINATED` when not `FAILED`). -/
lemma runTrace_stopped_state (j : Job) (h : j.stop_event = true) (rest : List Exec) :
    (j.runTrace rest).runs = j.runs ∧ (j.runTrace rest).crashed = j.crashed ∧
    (j.runTrace rest).stop_event = true ∧
    (j.runTrace rest).exception_list = j.exception_list := by
  cases rest with
  | nil => exact ⟨rfl, rfl, h, rfl⟩
  | cons e l => rw [runTrace_stopped j e l h]; exact ⟨rfl, rfl, h, rfl⟩

/-- A stopped job that already reached `FAILED` keeps that status forever. -/
lemma runTrace_stopped_failed (j : Job) (h : j.stop_event = true)
    (hf : j.status = Status.FAILED) (rest : List Exec) :
    (j.runTrace rest).status = Status.FAILED := by
  cases rest with
  | nil => exact hf
  | cons e l => rw [runTrace_stopped j e l h]; simp [hf]

/-- From construction, `k` successful executions below the run ceiling lead
to `succState k` (for `1 ≤ k < N`, period nonzero). -/
lemma init_succ_trace (p K N k : Nat) (hp : p ≠ 0) (hk : 1 ≤ k) (hkN : k < N)
    (rest : List Exec) :
    (Job.init p K (N : Int)).runTrace (List.replicate k ⟨true, "t", 0⟩ ++ rest) =
      (succState p K N k).runTrace rest := by
  obtain ⟨m, rfl⟩ : ∃ m, k = m + 1 := ⟨k - 1, by omega⟩
  have h4 : (((Job.init p K (N : Int)).runs + 1 : Nat) : Int) ≠ (Job.init p K (N : Int)).max_runs := by
    show ((0 + 1 : Nat) : Int) ≠ ((N : Nat) : Int)
    exact_mod_cast (by omega : 0 + 1 ≠ N)
  rw [List.replicate_succ, List.cons_append,
      runTrace_cons_ok (Job.init p K (N : Int)) "t" 0 _ rfl (Or.inr rfl) hp h4]
  have hstate : ({ Job.init p K (N : Int) with status := Status.COMPLETED, crashed := 0, runs := (Job.init p K (N : Int)).runs + 1, next_execution_at := 0 + (Job.init p K (N : Int)).every_seconds } : Job) = succState p K N 1 := by
    simp [Job.init, succState]
  rw [hstate]
  have hrest := succ_steps p K N hp m 1 (by omega) rest
  have harith : 1 + m = m + 1 := by omega
  rw [harith] at hrest
  exact hrest

/-- From construction, `N` successful executions with a nonzero period lead
to the self-stopped state `succEnd` (run ceiling `N ≥ 1` reached). -/
lemma init_succ_end (p K N : Nat) (hp : p ≠ 0) (hN : 1 ≤ N) (rest : List Exec) :
    (Job.init p K (N : Int)).runTrace (List.replicate N ⟨true, "t", 0⟩ ++ rest) =
      (succEnd p K N).runTrace rest := by
  rcases Nat.lt_or_ge N 2 with h2 | h2
  · -- N = 1 : the very first execution triggers the self-stop
    obtain rfl : N = 1 := by omega
    have h4 : (Job.init p K ((1 : Nat) : Int)).every_seconds = 0 ∨
        (((Job.init p K ((1 : Nat) : Int)).runs + 1 : Nat) : Int) =
          (Job.init p K ((1 : Nat) : Int)).max_runs :=
      Or.inr rfl
    rw [show (List.replicate 1 (⟨true, "t", 0⟩ : Exec)) = [⟨true, "t", 0⟩] from rfl,
        List.cons_append, List.nil_append,
        runTrace_cons_ok_stop (Job.init p K ((1 : Nat) : Int)) "t" 0 _ rfl (Or.inr rfl) h4]
    have hstate : ({ Job.init p K ((1 : Nat) : Int) with status := Status.COMPLETED, crashed := 0, runs := (Job.init p K ((1 : Nat) : Int)).runs + 1, stop_event := true, next_execution_at := 0 + (Job.init p K ((1 : Nat) : Int)).every_seconds } : Job) = succEnd p K 1 := by
      simp [Job.init, succState, succEnd]
    rw [hstate]
  · -- N ≥ 2 : run to succState (N - 1), then the stop-triggering step
    obtain ⟨m, rfl⟩ : ∃ m, N = m + 1 := ⟨N - 1, by omega⟩
    rw [List.replicate_succ', List.append_assoc,
        init_succ_trace p K (m + 1) m hp (by omega) (by omega)]
    have h4 : (succState p K (m + 1) m).every_seconds = 0 ∨
        (((succState p K (m + 1) m).runs + 1 : Nat) : Int) = (succState p K (m + 1) m).max_runs :=
      Or.inr rfl
    rw [List.cons_append, List.nil_append,
        runTrace_cons_ok_stop (succState p K (m + 1) m) "t" 0 _ rfl (Or.inl rfl) h4]
    have hstate : ({ succState p K (m + 1) m with status := Status.COMPLETED, crashed := 0, runs := (succState p K (m + 1) m).runs + 1, stop_event := true, next_execution_at := 0 + (succState p K (m + 1) m).every_seconds } : Job) = succEnd p K (m + 1) := by
      simp [succState, succEnd]
    rw [hstate]

/-- From construction, `k` failed executions below the crash ceiling lead to
`failState k` (for `1 ≤ k ≤ K`; the period is irrelevant on the failure
path). -/
lemma init_fail_trace (p K k : Nat) (hk : 1 ≤ k) (hkK : k ≤ K) (rest : List Exec) :
    (Job.init p K (-1)).runTrace (List.replicate k ⟨false, "t", 0⟩ ++ rest) =
      (failState p K k).runTrace rest := by
  obtain ⟨m, rfl⟩ : ∃ m, k = m + 1 := ⟨k - 1, by omega⟩
  have h5 : (Job.init p K (-1)).crashed + 1 ≤ (Job.init p K (-1)).max_crashes := by
    show 0 + 1 ≤ K
    omega
  rw [List.replicate_succ, List.cons_append,
      runTrace_cons_fail (Job.init p K (-1)) "t" 0 _ rfl (Or.inr rfl) h5]
  have hstate : ({ Job.init p K (-1) with status := Status.COMPLETED, crashed := (Job.init p K (-1)).crashed + 1, exception_list := (Job.init p K (-1)).exception_list ++ ["t"], next_execution_at := 0 + (Job.init p K (-1)).every_seconds } : Job) = failState p K 1 := by
    simp [Job.init, failState]
  rw [hstate]
  have hrest := fail_steps p K m 1 (by omega) rest
  have harith : 1 + m = m + 1 := by omega
  rw [harith] at hrest
  exact hrest

/-- From construction, `K + 1` consecutive failures breach the ceiling and
lead to the dead state `failEnd` (for `K ≥ 1`). -/
lemma init_fail_end (p K : Nat) (hK : 1 ≤ K) (rest : List Exec) :
    (Job.init p K (-1)).runTrace (List.replicate (K + 1) ⟨false, "t", 0⟩ ++ rest) =
      (failEnd p K).runTrace rest := by
  rw [List.replicate_succ', List.append_assoc,
      init_fail_trace p K K hK (by omega)]
  have h5 : (failState p K K).max_crashes < (failState p K K).crashed + 1 := by
    show K < K + 1
    omega
  rw [List.cons_append, List.nil_append,
      runTrace_cons_fail_fatal (failState p K K) "t" 0 _ rfl (Or.inl rfl) h5]
  have hstate : ({ failState p K K with status := Status.FAILED, crashed := (failState p K K).crashed + 1, stop_event := true, exception_list := (failState p K K).exception_list ++ ["t"], next_execution_at := 0 + (failState p K K).every_seconds } : Job) = failEnd p K := by
    simp [failState, failEnd, ← List.replicate_succ']
  rw [hstate]

-- Sanity scenario: one-shot job whose run succeeds terminates after one run.
example :
    ((Job.init 0 10 (-1)).runTrace [⟨true, "t", 0⟩]).stop_event = true ∧
    ((Job.init 0 10 (-1)).runTrace [⟨true, "t", 0⟩]).runs = 1 ∧
    ((Job.init 0 10 (-1)).runTrace [⟨true, "t", 0⟩, ⟨true, "t", 0⟩]).status = Status.TERMINATED := by
  refine ⟨rfl, rfl, rfl⟩

-- Sanity scenario: with ceiling 2 and always-failing work, three failures
-- reach FAILED with three recorded exceptions.
example :
    ((Job.init 1 2 (-1)).runTrace (List.replicate 3 ⟨false, "t", 0⟩)).status = Status.FAILED ∧
    ((Job.init 1 2 (-1)).runTrace (List.replicate 3 ⟨false, "t", 0⟩)).exception_list.length = 3 := by
  refine ⟨rfl, rfl⟩

/-! ## Claim theorems -/

/-- C1 (counterexample): a task unit with `period_seconds = 0` whose single
execution fails (below the crash ceiling) does NOT reach a terminal status
after that one execution: its status is `COMPLETED`, termination was not
requested, and the loop arms a second execution (the crash counter reaches
2). -/
theorem C1_period_zero_counterexample :
    ((Job.init 0 10 (-1)).runTrace [⟨false, "t", 0⟩]).status = Status.COMPLETED ∧
    ((Job.init 0 10 (-1)).runTrace [⟨false, "t", 0⟩]).stop_event = false ∧
    ((Job.init 0 10 (-1)).runTrace [⟨false, "t", 0⟩, ⟨false, "t", 0⟩]).crashed = 2 :=
  ⟨rfl, rfl, rfl⟩

/-- C1 (amended): for a task unit with `period_seconds = 0` and no pending
stop request, a successful execution requests termination (and the next
poll reaches `TERMINATED` with no further execution), but a failed
execution below the crash ceiling does not request termination: the unit
returns to `COMPLETED` and the loop arms another execution. -/
theorem C1_period_zero_amended (j : Job) (tb : String) (now : Nat) (e : Exec) (evs : List Exec)
    (h0 : j.every_seconds = 0) (hs : j.stop_event = false) :
    ((j.wrapper true tb now).1.stop_event = true ∧
     (j.wrapper true tb now).1.runTrace (e :: evs) =
       { (j.wrapper true tb now).1 with status := Status.TERMINATED }) ∧
    (j.crashed + 1 ≤ j.max_crashes →
      (j.wrapper false tb now).1.stop_event = false ∧
      (j.wrapper false tb now).1.status = Status.COMPLETED ∧
      (j.wrapper false tb now).1.loopBody now =
        LoopResult.armed { (j.wrapper false tb now).1 with status := Status.SCHEDULED } 1) := by
  constructor
  · rw [wrapper_ok_stop j tb now (Or.inl h0)]
    refine ⟨rfl, ?_⟩
    rw [runTrace_stopped _ e evs rfl]
    simp
  · intro h5
    rw [wrapper_fail j tb now h5]
    refine ⟨hs, rfl, ?_⟩
    rw [loopBody_arms ({ j with status := Status.COMPLETED, crashed := j.crashed + 1, exception_list := j.exception_list ++ [tb], next_execution_at := now + j.every_seconds }) now hs (Or.inl rfl)]
    simp [h0]

/-- C1 (witness for the amended theorem). -/
theorem C1_period_zero_witness :
    ((Job.init 0 10 (-1)).every_seconds = 0 ∧ (Job.init 0 10 (-1)).stop_event = false) ∧
    ((((Job.init 0 10 (-1)).wrapper true "t" 5).1.stop_event = true ∧
      ((Job.init 0 10 (-1)).wrapper true "t" 5).1.runTrace (⟨true, "u", 9⟩ :: []) =
        { ((Job.init 0 10 (-1)).wrapper true "t" 5).1 with status := Status.TERMINATED }) ∧
     ((Job.init 0 10 (-1)).crashed + 1 ≤ (Job.init 0 10 (-1)).max_crashes →
       (((Job.init 0 10 (-1)).wrapper false "t" 5).1.stop_event = false ∧
        ((Job.init 0 10 (-1)).wrapper false "t" 5).1.status = Status.COMPLETED ∧
        ((Job.init 0 10 (-1)).wrapper false "t" 5).1.loopBody 5 =
          LoopResult.armed
            { ((Job.init 0 10 (-1)).wrapper false "t" 5).1 with status := Status.SCHEDULED } 1))) :=
  ⟨⟨rfl, rfl⟩, C1_period_zero_amended (Job.init 0 10 (-1)) "t" 5 ⟨true, "u", 9⟩ [] rfl rfl⟩

/-- C2 (counterexample): a task unit with `max_runs = 0` and always
succeeding work does not "never perform an (N+1)th = 1st execution": it
performs a first execution (run counter reaches 1), never requests
termination when the counter equals 0, and performs a second execution. -/
theorem C2_max_runs_counterexample :
    ((Job.init 5 10 0).runTrace [⟨true, "t", 0⟩]).runs = 1 ∧
    ((Job.init 5 10 0).runTrace [⟨true, "t", 0⟩]).stop_event = false ∧
    ((Job.init 5 10 0).runTrace [⟨true, "t", 0⟩, ⟨true, "t", 0⟩]).runs = 2 :=
  ⟨rfl, rfl, rfl⟩

/-- C2 (amended): for every POSITIVE `N` and nonzero period, an
always-succeeding task unit with `max_runs = N` has not requested
termination while the run counter is below `N` (after `k < N` executions
the counter is exactly `k` and the stop flag is clear), and after the `N`th
successful execution the stop flag is set and the run counter stays at `N`
forever — no (N+1)th execution occurs.  (`max_runs = 0` never triggers the
ceiling, since the counter is compared for equality only after being
incremented.) -/
theorem C2_max_runs_amended (p K N k : Nat) (rest : List Exec) (hp : p ≠ 0) (hN : 1 ≤ N) :
    (k < N →
      ((Job.init p K (N : Int)).runTrace (List.replicate k ⟨true, "t", 0⟩)).stop_event = false ∧
      ((Job.init p K (N : Int)).runTrace (List.replicate k ⟨true, "t", 0⟩)).runs = k) ∧
    (((Job.init p K (N : Int)).runTrace (List.replicate N ⟨true, "t", 0⟩ ++ rest)).runs = N ∧
     ((Job.init p K (N : Int)).runTrace (List.replicate N ⟨true, "t", 0⟩ ++ rest)).stop_event = true) := by
  constructor
  · intro hk
    rcases Nat.eq_zero_or_pos k with rfl | hk1
    · exact ⟨rfl, rfl⟩
    · have := init_succ_trace p K N k hp hk1 hk []
      rw [List.append_nil] at this
      rw [this]
      exact ⟨rfl, rfl⟩
  · rw [init_succ_end p K N hp hN rest]
    obtain ⟨hr, _, hs, _⟩ := runTrace_stopped_state (succEnd p K N) rfl rest
    rw [hr, hs]
    exact ⟨rfl, rfl⟩

/-- C2 (witness for the amended theorem). -/
theorem C2_max_runs_witness :
    ((2 : Nat) ≠ 0 ∧ (1 : Nat) ≤ 2) ∧
    ((1 < 2 →
      ((Job.init 2 10 ((2 : Nat) : Int)).runTrace (List.replicate 1 ⟨true, "t", 0⟩)).stop_event = false ∧
      ((Job.init 2 10 ((2 : Nat) : Int)).runTrace (List.replicate 1 ⟨true, "t", 0⟩)).runs = 1) ∧
     (((Job.init 2 10 ((2 : Nat) : Int)).runTrace (List.replicate 2 ⟨true, "t", 0⟩ ++ [⟨true, "t", 0⟩])).runs = 2 ∧
      ((Job.init 2 10 ((2 : Nat) : Int)).runTrace (List.replicate 2 ⟨true, "t", 0⟩ ++ [⟨true, "t", 0⟩])).stop_event = true)) :=
  ⟨⟨by decide, by decide⟩,
    C2_max_runs_amended 2 10 2 1 [⟨true, "t", 0⟩] (by decide) (by decide)⟩

/-- C3: for every positive ceiling `K`, an always-failing task unit is not
`FAILED` after any `k ≤ K` failures (its crash counter is exactly `k`,
never exceeding `K` while non-FAILED), and the (K+1)th consecutive failure
puts it in `FAILED` with crash counter `K + 1`, permanently. -/
theorem C3_crash_ceiling (p K k : Nat) (rest : List Exec) (hK : 1 ≤ K) :
    (k ≤ K →
      ((Job.init p K (-1)).runTrace (List.replicate k ⟨false, "t", 0⟩)).status ≠ Status.FAILED ∧
      ((Job.init p K (-1)).runTrace (List.replicate k ⟨false, "t", 0⟩)).crashed = k ∧
      ((Job.init p K (-1)).runTrace (List.replicate k ⟨false, "t", 0⟩)).crashed ≤ K) ∧
    (((Job.init p K (-1)).runTrace (List.replicate (K + 1) ⟨false, "t", 0⟩ ++ rest)).status = Status.FAILED ∧
     ((Job.init p K (-1)).runTrace (List.replicate (K + 1) ⟨false, "t", 0⟩ ++ rest)).crashed = K + 1) := by
  constructor
  · intro hk
    rcases Nat.eq_zero_or_pos k with rfl | hk1
    · refine ⟨?_, rfl, ?_⟩ <;> simp [Job.runTrace, Job.init]
    · have h := init_fail_trace p K k hk1 hk []
      rw [List.append_nil] at h
      rw [h]
      refine ⟨?_, rfl, hk⟩
      simp [Job.runTrace, failState]
  · rw [init_fail_end p K hK rest]
    refine ⟨runTrace_stopped_failed (failEnd p K) rfl rfl rest, ?_⟩
    obtain ⟨_, hc, _, _⟩ := runTrace_stopped_state (failEnd p K) rfl rest
    exact hc

/-- C3 (witness). -/
theorem C3_crash_ceiling_witness :
    (1 : Nat) ≤ 1 ∧
    ((1 ≤ 1 →
      ((Job.init 3 1 (-1)).runTrace (List.replicate 1 ⟨false, "t", 0⟩)).status ≠ Status.FAILED ∧
      ((Job.init 3 1 (-1)).runTrace (List.replicate 1 ⟨false, "t", 0⟩)).crashed = 1 ∧
      ((Job.init 3 1 (-1)).runTrace (List.replicate 1 ⟨false, "t", 0⟩)).crashed ≤ 1) ∧
     (((Job.init 3 1 (-1)).runTrace (List.replicate (1 + 1) ⟨false, "t", 0⟩ ++ [])).status = Status.FAILED ∧
      ((Job.init 3 1 (-1)).runTrace (List.replicate (1 + 1) ⟨false, "t", 0⟩ ++ [])).crashed = 1 + 1)) :=
  ⟨by decide, C3_crash_ceiling 3 1 1 [] (by decide)⟩

/-- C4: on every wrapper execution, a normal return resets the consecutive
crash counter to 0 and increments the successful-run counter; a raised
failure increments the crash counter, appends one record to the exception
log, and leaves the successful-run counter unchanged. -/
theorem C4_counter_updates (j : Job) (tb : String) (now : Nat) :
    ((j.wrapper true tb now).1.crashed = 0 ∧
     (j.wrapper true tb now).1.runs = j.runs + 1) ∧
    ((j.wrapper false tb now).1.crashed = j.crashed + 1 ∧
     (j.wrapper false tb now).1.runs = j.runs ∧
     (j.wrapper false tb now).1.exception_list = j.exception_list ++ [tb]) := by
  cases j with
  | mk es mc mr st cr rn se el ne =>
    refine ⟨?_, ?_⟩ <;> simp only [Job.wrapper, Job.stop] <;> split <;>
      simp_all <;> split <;> simp_all

/-- C5: when the supervisory loop observes the stop event it exits, setting
`TERMINATED` only when the status is not already `FAILED`; a `FAILED`
status is left untouched. -/
theorem C5_failed_precedence (j : Job) (now : Nat) (h : j.stop_event = true) :
    (j.status ≠ Status.FAILED →
      j.loopBody now = LoopResult.exited { j with status := Status.TERMINATED }) ∧
    (j.status = Status.FAILED → j.loopBody now = LoopResult.exited j) := by
  constructor
  · intro hf
    rw [loopBody_stopped j now h]
    simp [hf]
  · intro hf
    rw [loopBody_stopped j now h]
    cases j with
    | mk es mc mr st cr rn se el ne =>
      simp only at hf
      subst hf
      simp

/-- C5 (witness). -/
theorem C5_failed_precedence_witness :
    (Job.init 1 2 (-1)).stop.stop_event = true ∧
    (Job.init 1 2 (-1)).stop.loopBody 0 =
      LoopResult.exited { (Job.init 1 2 (-1)).stop with status := Status.TERMINATED } :=
  ⟨rfl, (C5_failed_precedence (Job.init 1 2 (-1)).stop 0 rfl).1 (by decide)⟩

/-- C6: calling `stop()` on a task unit between executions (`COMPLETED` or
`INITIATED`) makes the next loop poll exit with status `TERMINATED`, and no
further execution is ever armed: any continuation of the trace is exactly
that terminated state, with run and crash counters untouched. -/
theorem C6_stop_terminates (j : Job) (e : Exec) (evs : List Exec) (now : Nat)
    (h2 : j.status = Status.COMPLETED ∨ j.status = Status.INITIATED) :
    j.stop.loopBody now = LoopResult.exited { j.stop with status := Status.TERMINATED } ∧
    j.stop.runTrace (e :: evs) = { j.stop with status := Status.TERMINATED } ∧
    ({ j.stop with status := Status.TERMINATED } : Job).runs = j.runs ∧
    ({ j.stop with status := Status.TERMINATED } : Job).crashed = j.crashed := by
  have hf : j.stop.status ≠ Status.FAILED := by
    rcases h2 with h2 | h2 <;> simp [Job.stop, h2]
  refine ⟨?_, ?_, rfl, rfl⟩
  · rw [loopBody_stopped j.stop now rfl]
    simp [hf]
  · rw [runTrace_stopped j.stop e evs rfl]
    simp [hf]

/-- C6 (witness). -/
theorem C6_stop_terminates_witness :
    ((Job.init 4 10 (-1)).status = Status.COMPLETED ∨
      (Job.init 4 10 (-1)).status = Status.INITIATED) ∧
    ((Job.init 4 10 (-1)).stop.loopBody 7 =
      LoopResult.exited { (Job.init 4 10 (-1)).stop with status := Status.TERMINATED } ∧
     (Job.init 4 10 (-1)).stop.runTrace (⟨true, "t", 8⟩ :: []) =
       { (Job.init 4 10 (-1)).stop with status := Status.TERMINATED } ∧
     ({ (Job.init 4 10 (-1)).stop with status := Status.TERMINATED } : Job).runs =
       (Job.init 4 10 (-1)).runs ∧
     ({ (Job.init 4 10 (-1)).stop with status := Status.TERMINATED } : Job).crashed =
       (Job.init 4 10 (-1)).crashed) :=
  ⟨Or.inr rfl, C6_stop_terminates (Job.init 4 10 (-1)) ⟨true, "t", 8⟩ [] 7 (Or.inr rfl)⟩

/-- C7: the exception log starts empty, is emptied only by
`clear_exception`, and along any trace grows by exactly the records of the
failed executions that fire — one appended record per failure, in order,
and no other operation adds or removes records. -/
theorem C7_exception_log (j : Job) (evs : List Exec) (p K : Nat) (M : Int) :
    (Job.init p K M).exception_list = [] ∧
    (j.clear_exception).exception_list = [] ∧
    (j.runTrace evs).exception_list = j.exception_list ++ j.failRecords evs :=
  ⟨rfl, rfl, runTrace_list j evs⟩

/-- C8: `clear_exception` empties the failure record list and leaves every
other field — status, crash counter, run counter, stop flag, configuration
and schedule — unchanged. -/
theorem C8_clear_exception_frame (j : Job) :
    (j.clear_exception).exception_list = [] ∧
    (j.clear_exception).status = j.status ∧
    (j.clear_exception).crashed = j.crashed ∧
    (j.clear_exception).runs = j.runs ∧
    (j.clear_exception).stop_event = j.stop_event ∧
    (j.clear_exception).every_seconds = j.every_seconds ∧
    (j.clear_exception).max_crashes = j.max_crashes ∧
    (j.clear_exception).max_runs = j.max_runs ∧
    (j.clear_exception).next_execution_at = j.next_execution_at :=
  ⟨rfl, rfl, rfl, rfl, rfl, rfl, rfl, rfl, rfl⟩

/-- C9: the `exception` accessor returns `none` exactly when the exception
list is empty (in particular right after construction and right after a
clear), and otherwise returns the list of recorded failures itself. -/
theorem C9_exception_accessor (j : Job) (p K : Nat) (M : Int) :
    (Job.init p K M).exception = none ∧
    (j.clear_exception).exception = none ∧
    (j.exception = none ↔ j.exception_list = []) ∧
    (j.exception_list ≠ [] → j.exception = some j.exception_list) := by
  refine ⟨rfl, rfl, ?_, ?_⟩
  · simp [Job.exception, List.length_eq_zero]
  · intro h
    simp [Job.exception, List.length_eq_zero, h]

/-- C9 (witness). -/
theorem C9_exception_accessor_witness :
    (((Job.init 0 10 (-1)).runTrace [⟨false, "t", 0⟩]).exception_list ≠ [] ∧
      ((Job.init 0 10 (-1)).runTrace [⟨false, "t", 0⟩]).exception =
        some ((Job.init 0 10 (-1)).runTrace [⟨false, "t", 0⟩]).exception_list) :=
  ⟨by decide,
    (C9_exception_accessor ((Job.init 0 10 (-1)).runTrace [⟨false, "t", 0⟩]) 1 1 1).2.2.2
      (by decide)⟩

/-- C10: in the wrapper's cleanup, `COMPLETED` is assigned if and only if
the crash counter is within the ceiling; when the counter exceeds the
ceiling the status is `FAILED` and the fatal exception is raised (second
component `true`), so a `FAILED` status is never overwritten to
`COMPLETED` by the same execution. -/
theorem C10_failed_not_overwritten (j : Job) (ok : Bool) (tb : String) (now : Nat) :
    ((j.wrapper ok tb now).2 = true ↔ j.max_crashes < (j.wrapper ok tb now).1.crashed) ∧
    ((j.wrapper ok tb now).1.status = Status.FAILED ↔
      j.max_crashes < (j.wrapper ok tb now).1.crashed) ∧
    ((j.wrapper ok tb now).1.status = Status.COMPLETED ↔
      (j.wrapper ok tb now).1.crashed ≤ j.max_crashes) := by
  cases j with
  | mk es mc mr st cr rn se el ne =>
    cases ok
    · simp only [Job.wrapper, Job.stop]
      by_cases hc : mc < cr + 1
      · simp [hc]
      · simp [hc]
        omega
    · simp only [Job.wrapper, Job.stop]
      by_cases hs : es = 0 ∨ (rn : Int) + 1 = mr <;>
        simp [hs, Nat.not_lt_zero]

end ThreadScheduler
